import Mathlib

/-!
# Verification of `build-if-changed` (src/index.js)

A shallow embedding of the incremental task runner:
configuration parsing (`readConfigFile`), the file-set fingerprinter
(`getHashesFromGlobs`), the change-detection decision
(`runTaskIfHashesModified`, lines 137-183, here `buildReason` / `runTask`),
the executor outcome handling (`executeTask`), and the fixpoint scheduler
(`runTasksUntilExhausted`, here `schedRun`).

Machine-level effects (real filesystem, child processes, the md5 function)
are parameters: a `FS` value supplies the glob expansion and per-file
checksum, an `exec` function supplies a command's effect on the filesystem
and its exit outcome, and `md5` is an arbitrary string-hash parameter.
-/

namespace BuildIfChanged

/-- `exit(msg, code)` in the source normalizes its exit code with
`code = code || 0`: a missing (or zero) code becomes `0`. -/
def exitCodeOf : Option Nat → Nat
  | none => 0
  | some c => c

/-- One configured task (`currentTask` object built in `readConfigFile`,
lines 69-76): command text, input glob patterns, output glob patterns,
and the md5 of the command used as its persistence key. -/
structure Task where
  cmd : String
  inputPatterns : List String
  outputPatterns : List String
  cmdMd5 : String
deriving DecidableEq, Repr

/-- `line.charAt(0) === c`: first character test; false on the empty line. -/
def charAt0 (s : String) (c : Char) : Bool :=
  match s.data with
  | [] => false
  | a :: _ => a = c

/-- `line.indexOf(p) === 0`: the line begins with the literal prefix `p`. -/
def hasPrefixStr (s p : String) : Bool :=
  p.data.isPrefixOf s.data

/-- `line.substr(4)`: drop the first four characters. -/
def strDrop4 (s : String) : String :=
  String.mk (s.data.drop 4)

/-- The command text of a header line (line 70):
`line.replace(/^\s*\[/,'').replace(/]\s*$/,'')` — since the line is only
treated as a header when its first character is `[`, the first replace
drops that bracket; the second removes a trailing `]` together with any
whitespace after it, when present. -/
def parseCmd (line : String) : String :=
  let s := line.data.drop 1
  let t := (s.reverse.dropWhile Char.isWhitespace).reverse
  if t.getLast? = some ']' then String.mk t.dropLast else String.mk s

/-- A non-blank, non-comment line under the current task (lines 90-92):
a leading `out:` declares an output pattern (the remainder after the
prefix), and the line itself is always pushed as an input pattern. -/
def addPattern (line : String) (t : Task) : Task :=
  { t with
    outputPatterns :=
      if hasPrefixStr line "out:" then t.outputPatterns ++ [strDrop4 line]
      else t.outputPatterns
    inputPatterns := t.inputPatterns ++ [line] }

/-- Apply `f` to the last element of a list (the JS code mutates
`currentTask`, which is the most recently pushed element of `tasks`). -/
def updateLast (f : Task → Task) : List Task → List Task
  | [] => []
  | [t] => [f t]
  | t :: ts => t :: updateLast f ts

/-- A fatal configuration error: the `exit` message and the process exit
code it is invoked with (after `code = code || 0`). -/
abbrev ConfigErr := String × Nat

/-- A `[`-header line (lines 65-84): check the previous task had
dependencies, parse the command, reject an empty or duplicate command,
then push the fresh task. Note that the empty-command and
duplicate-command `exit` calls pass no exit code, so they exit with
`exitCodeOf none = 0`. -/
def newTask (md5 : String → String) (tasks : List Task) (line : String) :
    Except ConfigErr (List Task) :=
  let cmd := parseCmd line
  if cmd = "" then
    .error ("task command should not be empty", exitCodeOf none)
  else
    let m := md5 cmd
    if tasks.any (fun t => t.cmdMd5 = m) then
      .error ("task command should be unique", exitCodeOf none)
    else
      .ok (tasks ++ [{ cmd := cmd, inputPatterns := [], outputPatterns := [],
                       cmdMd5 := m }])

/-- One line of the configuration file (the `forEach` body, lines 63-94).
`tasks.getLast?` plays the role of `currentTask`: the current task is
always the most recently pushed one. -/
def processLine (md5 : String → String) (tasks : List Task) (line : String) :
    Except ConfigErr (List Task) :=
  if charAt0 line '[' then
    match tasks.getLast? with
    | some prev =>
      if prev.inputPatterns = [] then
        .error ("command '" ++ prev.cmd ++ "' didn't specifiy any dependencies",
                exitCodeOf (some 6))
      else newTask md5 tasks line
    | none => newTask md5 tasks line
  else if charAt0 line '#' then
    .ok tasks
  else if line ≠ "" then
    match tasks.getLast? with
    | none =>
      .error ("buildconfig files should start with a shell command between brackets",
              exitCodeOf (some 2))
    | some _ => .ok (updateLast (addPattern line) tasks)
  else
    .ok tasks

/-- `content.split('\n')`: cut the character list at every newline,
keeping empty segments (`"" → [""]`, `"a\n" → ["a", ""]`). -/
def splitLines (s : String) : List String :=
  (s.data.foldr
    (fun c acc =>
      match acc with
      | cur :: rest => if c = '\n' then [] :: cur :: rest else (c :: cur) :: rest
      | [] => [[c]])
    [[]]).map String.mk

/-- `readConfigFile` (lines 60-96): split the file contents on `\n` and
fold the line handler over the lines; `process.exit` inside the loop is
modelled by the `Except` short circuit. There is no end-of-file check:
after the last line the accumulated task list is returned as is. -/
def readConfigFile (md5 : String → String) (content : String) :
    Except ConfigErr (List Task) :=
  (splitLines content).foldlM (processLine md5) []

/-- The filesystem as seen by the program: `glob` is globby's expansion of
a pattern list into matched files (`nodir: true`, order as globby returns
it), `hashFile` is `checksum.file` on a matched file (it may fail with an
I/O error). `glob_nil` records globby's contract that an empty pattern
list matches no files. -/
structure FS where
  glob : List String → List String
  hashFile : String → Except String String
  glob_nil : glob [] = []

/-- Hash every matched file, stopping at the first checksum error
(the per-file `checksum.file` callbacks of lines 233-241; the spec's join
barrier is the completed list). -/
def hashAll (hashFile : String → Except String String) :
    List String → Except String (List String)
  | [] => .ok []
  | f :: fs =>
    match hashFile f with
    | .error e => .error e
    | .ok h =>
      match hashAll hashFile fs with
      | .error e => .error e
      | .ok hs => .ok (h :: hs)

/-- `getHashesFromGlobs` (lines 215-244): glob the patterns, hash each
matched file, and join `md5 + ' ' + files[idx]` lines with `\n`;
zero matched files yield the empty string (join of an empty array). -/
def getHashesFromGlobs (fs : FS) (patterns : List String) :
    Except String String :=
  match hashAll fs.hashFile (fs.glob patterns) with
  | .error e => .error e
  | .ok sums =>
    .ok (String.intercalate "\n"
      (List.zipWith (fun h f => h ++ " " ++ f) sums (fs.glob patterns)))

/-- The decision chain of `runTaskIfHashesModified` (lines 144-155):
`some reason` means `shouldBuild` stays `true` with that `buildReason`,
`none` means `shouldBuild = false` (skip). The first condition is the JS
truthiness test `!outputFilesHashData && task.outputPatterns.length`. -/
def buildReason (t : Task) (existingOut existingIn curOut curIn : String) :
    Option String :=
  if curOut = "" ∧ t.outputPatterns.length ≠ 0 then
    some "(output files are missing)"
  else if existingOut ≠ curOut then
    some "(output files have changed)"
  else if existingIn ≠ curIn then
    some "(input files have changed)"
  else
    none

/-- Cache file path for a task's persisted output fingerprint (line 138). -/
def outKey (t : Task) : String := t.cmdMd5 ++ "-out-hashes"

/-- Cache file path for a task's persisted input fingerprint (line 139). -/
def inKey (t : Task) : String := t.cmdMd5 ++ "-in-hashes"

/-- The cache directory contents: one entry per written cache file. -/
abbrev Cache := List (String × String)

/-- `fs.existsSync ? fs.readFileSync : ''` (lines 141-142): a missing
cache file reads as the empty string. -/
def readCache (c : Cache) (k : String) : String :=
  (c.lookup k).getD ""

/-- `fs.writeFileSync` into the cache directory: overwrite the entry. -/
def cacheWrite (c : Cache) (k v : String) : Cache :=
  (k, v) :: c

/-- Whole persisted+filesystem state as the program sees it. -/
structure World where
  fsys : FS
  cache : Cache

/-- Outcome of spawning a task's command (`executeTask`, lines 185-213):
the command's effect on the filesystem plus the child's exit outcome.
`killed` is `code === null` (terminated by signal). -/
inductive ExecResult where
  | success (fs : FS)
  | nonZeroExit (code : Nat) (fs : FS)
  | killed (signal : String) (fs : FS)

/-- How one `runTask` invocation ends: `completed b w` is the
`callback(null, taskDidRun)` continuation into the scheduler (`b` is the
JS `taskDidRun` truthiness, `w` the state the run continues with),
`fatal code w` is a direct `process.exit(code)` leaving state `w` behind,
`errored e w` is `callback(err)`. -/
inductive RunResult where
  | completed (taskDidRun : Bool) (w : World)
  | fatal (code : Nat) (w : World)
  | errored (err : String) (w : World)

/-- `runTask` + `runTaskIfHashesModified` + `executeTask` (lines 126-213):
hash the output patterns, then the input patterns (line 128-129); read the
two cache files; decide via `buildReason`; on skip just call back
(line 181), else execute (the pre-execution globby of lines 159-162 only
feeds the unimplemented "delete those files" TODO and changes nothing).
A non-zero child exit calls `exit(msg, code)` (line 209), a signal kill
calls `exit(msg, 13)` (line 207). After success, output hashes are
recomputed on the new filesystem; if the task declared output patterns but
the fresh fingerprint is empty, `exit(msg)` fires with NO exit code
(line 173), i.e. code `exitCodeOf none`. Otherwise the fresh output
fingerprint and the PRE-execution input fingerprint are written to the
cache as a pair (lines 174-175) and the task reports `taskDidRun = true`. -/
def runTask (exec : Task → FS → ExecResult) (w : World) (t : Task) : RunResult :=
  match getHashesFromGlobs w.fsys t.outputPatterns with
  | .error e => .errored e w
  | .ok curOut =>
    match getHashesFromGlobs w.fsys t.inputPatterns with
    | .error e => .errored e w
    | .ok curIn =>
      match buildReason t (readCache w.cache (outKey t)) (readCache w.cache (inKey t))
          curOut curIn with
      | none => .completed false w
      | some _reason =>
        match exec t w.fsys with
        | .killed _sig fs2 => .fatal (exitCodeOf (some 13)) ⟨fs2, w.cache⟩
        | .nonZeroExit c fs2 => .fatal (exitCodeOf (some c)) ⟨fs2, w.cache⟩
        | .success fs2 =>
          match getHashesFromGlobs fs2 t.outputPatterns with
          | .error e => .errored e ⟨fs2, w.cache⟩
          | .ok fresh =>
            if t.outputPatterns.length ≠ 0 ∧ fresh = "" then
              .fatal (exitCodeOf none) ⟨fs2, w.cache⟩
            else
              .completed true
                ⟨fs2, cacheWrite (cacheWrite w.cache (outKey t) fresh) (inKey t) curIn⟩

/-- The change decision `runTask` takes on `w`, isolated for statements:
the two current fingerprints fed into `buildReason` against the two cache
reads (an error is a fingerprinting failure). -/
def taskDecision (w : World) (t : Task) : Except String (Option String) :=
  match getHashesFromGlobs w.fsys t.outputPatterns with
  | .error e => .error e
  | .ok curOut =>
    match getHashesFromGlobs w.fsys t.inputPatterns with
    | .error e => .error e
    | .ok curIn =>
      .ok (buildReason t (readCache w.cache (outKey t)) (readCache w.cache (inKey t))
            curOut curIn)

/-- Scheduler loop state (`runTasksUntilExhausted`, lines 98-124): the
task index about to be considered, the `didSomeTaskRunInLastIteration`
flag, the `amountOfTaskRun` counter, and the ambient world. The JS `i`
starts at `-1` and is incremented before the bounds check; here the state
holds the already incremented index "about to be considered". -/
structure SchedSt where
  i : Nat
  didRun : Bool
  amount : Nat
  w : World

/-- How a whole scheduler run ends. `done` is the final
`exit("FINISHED, n task(s) completed" / "SKIPPED, no changes found")` with
exit code `0`; `fatal` is a `process.exit` from inside a task; `errored`
is the `callback(err)` path of line 103 (in the source this path then
crashes on the `console.err` typo before reaching `exit(..., 5)`);
`outOfFuel` marks exhaustion of the step budget only. -/
inductive Outcome where
  | done (amount : Nat) (w : World)
  | fatal (code : Nat) (w : World)
  | errored (err : String) (w : World)
  | outOfFuel

/-- `runTasksUntilExhausted` (lines 98-124), with an explicit step budget
since the retry-until-quiescent loop has no termination guarantee: when
the index is in range, run that task and fold its `taskDidRun` report into
the flags (lines 107-110); past the end of the list, restart at index `0`
when some task ran this pass (lines 113-115), else exit reporting the
total count (line 117). -/
def schedRun (exec : Task → FS → ExecResult) (tasks : List Task) :
    Nat → SchedSt → Outcome
  | 0, _ => .outOfFuel
  | fuel + 1, s =>
    if h : s.i < tasks.length then
      match runTask exec s.w (tasks.get ⟨s.i, h⟩) with
      | .completed b w2 =>
        schedRun exec tasks fuel
          ⟨s.i + 1, s.didRun || b, s.amount + (if b then 1 else 0), w2⟩
      | .fatal c w2 => .fatal c w2
      | .errored e w2 => .errored e w2
    else if s.didRun then
      schedRun exec tasks fuel ⟨0, false, s.amount, s.w⟩
    else
      .done s.amount s.w

/-- Specification-side counter: how many task executions (`taskDidRun`
reports) the scheduler performs along the same trajectory `schedRun`
follows. Used only to state that the reported total equals the number of
executions. -/
def specExecCount (exec : Task → FS → ExecResult) (tasks : List Task) :
    Nat → SchedSt → Nat
  | 0, _ => 0
  | fuel + 1, s =>
    if h : s.i < tasks.length then
      match runTask exec s.w (tasks.get ⟨s.i, h⟩) with
      | .completed b w2 =>
        (if b then 1 else 0) +
          specExecCount exec tasks fuel
            ⟨s.i + 1, s.didRun || b, s.amount + (if b then 1 else 0), w2⟩
      | .fatal _ _ => 0
      | .errored _ _ => 0
    else if s.didRun then
      specExecCount exec tasks fuel ⟨0, false, s.amount, s.w⟩
    else
      0

/-- Modelled from the spec: the reasons of the §4.2 change-detection
decision table. -/
inductive RunReason where
  | outputsMissing
  | outputsChanged
  | inputsChanged
deriving DecidableEq, Repr

/-- Modelled from the spec (§4.2 `shouldRun`): first matching rule wins —
(1) output patterns declared and current output fingerprint empty →
outputs missing; (2) current output fingerprint differs from persisted →
outputs changed; (3) current input fingerprint differs from persisted →
inputs changed; (4) skip. -/
def specChangeDecision (outputPatterns : List String)
    (persistedOut persistedIn curOut curIn : String) : Option RunReason :=
  if outputPatterns ≠ [] ∧ curOut = "" then some .outputsMissing
  else if curOut ≠ persistedOut then some .outputsChanged
  else if curIn ≠ persistedIn then some .inputsChanged
  else none

/-- The log text the source prints for each spec-level run reason. -/
def reasonText : RunReason → String
  | .outputsMissing => "(output files are missing)"
  | .outputsChanged => "(output files have changed)"
  | .inputsChanged => "(input files have changed)"

/-! ## Helper lemmas -/

theorem hashAll_ok (hashFile : String → Except String String) (h : String → String) :
    ∀ l : List String, (∀ f ∈ l, hashFile f = .ok (h f)) →
      hashAll hashFile l = .ok (l.map h) := by
  intro l
  induction l with
  | nil => intro _; rfl
  | cons f fs ih =>
    intro hp
    have hf : hashFile f = .ok (h f) := hp f (List.mem_cons_self _ _)
    have hrest := ih (fun g hg => hp g (List.mem_cons_of_mem _ hg))
    simp [hashAll, hf, hrest]

theorem zipWith_join_self (h : String → String) :
    ∀ l : List String,
      List.zipWith (fun a f => a ++ " " ++ f) (l.map h) l =
        l.map (fun f => h f ++ " " ++ f) := by
  intro l
  induction l with
  | nil => rfl
  | cons f fs ih => simp [List.zipWith, ih]

theorem getHashes_ok (fs : FS) (patterns : List String) (h : String → String)
    (hp : ∀ f ∈ fs.glob patterns, fs.hashFile f = .ok (h f)) :
    getHashesFromGlobs fs patterns =
      .ok (String.intercalate "\n"
        ((fs.glob patterns).map (fun f => h f ++ " " ++ f))) := by
  unfold getHashesFromGlobs
  simp only [hashAll_ok fs.hashFile h _ hp, zipWith_join_self]

theorem getHashes_empty_glob (fs : FS) (patterns : List String)
    (hg : fs.glob patterns = []) : getHashesFromGlobs fs patterns = .ok "" := by
  unfold getHashesFromGlobs
  rw [hg]
  rfl

theorem getHashes_nil (fs : FS) : getHashesFromGlobs fs [] = .ok "" :=
  getHashes_empty_glob fs [] fs.glob_nil

/-- A skipped task leaves the world untouched. -/
theorem runTask_completed_false {exec : Task → FS → ExecResult} {w : World}
    {t : Task} {w2 : World} (h : runTask exec w t = .completed false w2) :
    w2 = w := by
  unfold runTask at h
  repeat' split at h
  all_goals cases h
  all_goals rfl

/-- A task that reports `taskDidRun = true` ran its command successfully,
and the world it continues with carries the post-execution filesystem and
the cache with the fresh output fingerprint and the pre-execution input
fingerprint written as a pair. -/
theorem runTask_completed_true {exec : Task → FS → ExecResult} {w : World}
    {t : Task} {w2 : World} (h : runTask exec w t = .completed true w2) :
    ∃ curIn fs2 fresh,
      getHashesFromGlobs w.fsys t.inputPatterns = .ok curIn ∧
      exec t w.fsys = .success fs2 ∧
      getHashesFromGlobs fs2 t.outputPatterns = .ok fresh ∧
      ¬(t.outputPatterns.length ≠ 0 ∧ fresh = "") ∧
      w2 = ⟨fs2, cacheWrite (cacheWrite w.cache (outKey t) fresh) (inKey t) curIn⟩ := by
  unfold runTask at h
  repeat' split at h
  all_goals cases h
  exact ⟨_, _, _, by assumption, by assumption, by assumption, by assumption, rfl⟩

/-- A fatal outcome (`process.exit` fired mid-task) never wrote the cache. -/
theorem runTask_fatal_cache {exec : Task → FS → ExecResult} {w : World}
    {t : Task} {c : Nat} {w2 : World} (h : runTask exec w t = .fatal c w2) :
    w2.cache = w.cache := by
  unfold runTask at h
  repeat' split at h
  all_goals cases h
  all_goals rfl

/-- An errored outcome (fingerprinting failure) never wrote the cache. -/
theorem runTask_errored_cache {exec : Task → FS → ExecResult} {w : World}
    {t : Task} {e : String} {w2 : World} (h : runTask exec w t = .errored e w2) :
    w2.cache = w.cache := by
  unfold runTask at h
  repeat' split at h
  all_goals cases h
  all_goals rfl

/-- When the change decision is a skip, `runTask` just calls back with
`taskDidRun` falsy and the world unchanged. -/
theorem runTask_of_decision_none {exec : Task → FS → ExecResult} {w : World}
    {t : Task} (h : taskDecision w t = .ok none) :
    runTask exec w t = .completed false w := by
  unfold taskDecision at h
  unfold runTask
  split at h
  · cases h
  · rename_i curOut heqOut
    split at h
    · cases h
    · rename_i curIn heqIn
      have hb : buildReason t (readCache w.cache (outKey t))
          (readCache w.cache (inKey t)) curOut curIn = none := by
        injection h
      simp only [heqOut, heqIn, hb]

/-- Unfolding the scheduler at the pass boundary (`i >= tasks.length`,
lines 112-118): restart at index `0` with the pass flag cleared when some
task ran, else exit reporting the accumulated count. -/
theorem schedRun_boundary (exec : Task → FS → ExecResult) (tasks : List Task)
    (fuel : Nat) (s : SchedSt) (h : tasks.length ≤ s.i) :
    schedRun exec tasks (fuel + 1) s =
      if s.didRun then schedRun exec tasks fuel ⟨0, false, s.amount, s.w⟩
      else .done s.amount s.w := by
  rw [schedRun]
  rw [dif_neg (by omega)]

/-- The reported total equals the starting counter plus the number of
task executions performed along the run. -/
theorem schedRun_done_count (exec : Task → FS → ExecResult) (tasks : List Task) :
    ∀ (fuel : Nat) (s : SchedSt) (n : Nat) (w2 : World),
      schedRun exec tasks fuel s = .done n w2 →
      n = s.amount + specExecCount exec tasks fuel s := by
  intro fuel
  induction fuel with
  | zero => intro s n w2 h; simp [schedRun] at h
  | succ fuel ih =>
    intro s n w2 h
    rw [schedRun] at h
    rw [specExecCount]
    by_cases hi : s.i < tasks.length
    · rw [dif_pos hi] at h ⊢
      cases hr : runTask exec s.w (tasks.get ⟨s.i, hi⟩) with
      | completed b w3 =>
        simp only [hr] at h ⊢
        have hn := ih _ _ _ h
        dsimp only at hn
        omega
      | fatal c w3 => simp only [hr] at h; cases h
      | errored e w3 => simp only [hr] at h; cases h
    · rw [dif_neg hi] at h ⊢
      cases hd : s.didRun with
      | true =>
        simp [hd] at h ⊢
        exact ih _ _ _ h
      | false =>
        simp [hd] at h ⊢
        omega

/-- If the scheduler reaches `done`, every task skips in the final world:
`done` only fires when a full pass ran nothing, and skipping never changes
the world. The hypothesis is the pass invariant (tasks already swept this
pass all skipped), vacuous at a pass start. -/
theorem schedRun_done_all_skip (exec : Task → FS → ExecResult) (tasks : List Task) :
    ∀ (fuel : Nat) (s : SchedSt) (n : Nat) (w2 : World),
      (s.didRun = false →
        ∀ j (hj : j < tasks.length), j < s.i →
          runTask exec s.w (tasks.get ⟨j, hj⟩) = .completed false s.w) →
      schedRun exec tasks fuel s = .done n w2 →
      ∀ j (hj : j < tasks.length),
        runTask exec w2 (tasks.get ⟨j, hj⟩) = .completed false w2 := by
  intro fuel
  induction fuel with
  | zero => intro s n w2 _ h; simp [schedRun] at h
  | succ fuel ih =>
    intro s n w2 hinv h
    rw [schedRun] at h
    by_cases hi : s.i < tasks.length
    · rw [dif_pos hi] at h
      cases hr : runTask exec s.w (tasks.get ⟨s.i, hi⟩) with
      | completed b w3 =>
        simp only [hr] at h
        cases b with
        | false =>
          have hw3 : w3 = s.w := runTask_completed_false hr
          subst hw3
          refine ih _ _ _ ?_ h
          intro hd j hj hji
          simp only [Bool.or_false] at hd
          rcases Nat.lt_succ_iff_lt_or_eq.mp hji with hlt | heq
          · exact hinv hd j hj hlt
          · subst heq; exact hr
        | true =>
          refine ih _ _ _ ?_ h
          intro hd
          simp at hd
      | fatal c w3 => simp only [hr] at h; cases h
      | errored e w3 => simp only [hr] at h; cases h
    · rw [dif_neg hi] at h
      cases hd : s.didRun with
      | true =>
        simp only [hd, if_true] at h
        refine ih _ _ _ ?_ h
        intro _ j hj hji
        exact absurd hji (Nat.not_lt_zero j)
      | false =>
        simp only [hd, if_false] at h
        cases h
        intro j hj
        exact hinv hd j hj (lt_of_lt_of_le hj (not_lt.mp hi))

/-- If every task skips in the current world, sweeping the remaining `m`
tasks of the pass finds nothing to do and the scheduler exits with the
current counter. -/
theorem schedRun_all_skip (exec : Task → FS → ExecResult) (tasks : List Task) :
    ∀ (m : Nat) (s : SchedSt), s.didRun = false → s.i + m = tasks.length →
      (∀ j (hj : j < tasks.length),
        runTask exec s.w (tasks.get ⟨j, hj⟩) = .completed false s.w) →
      schedRun exec tasks (m + 1) s = .done s.amount s.w := by
  intro m
  induction m with
  | zero =>
    intro s hd hlen _hall
    rw [schedRun]
    rw [dif_neg (by omega)]
    simp [hd]
  | succ m ih =>
    intro s hd hlen hall
    rw [schedRun]
    have hi : s.i < tasks.length := by omega
    rw [dif_pos hi]
    simp only [hall s.i hi, hd]
    exact ih ⟨s.i + 1, false, s.amount, s.w⟩ rfl (by simp; omega) hall

theorem out_line_shape {line : String} (h : hasPrefixStr line "out:" = true) :
    ∃ rest, line.data = 'o' :: 'u' :: 't' :: ':' :: rest := by
  unfold hasPrefixStr at h
  rw [ List.isPrefixOf_iff_prefix] at h
  obtain ⟨rest, hr⟩ := h
  refine ⟨rest, ?_⟩
  rw [← hr]
  rfl

theorem updateLast_append (f : Task → Task) :
    ∀ (ts : List Task) (t : Task), updateLast f (ts ++ [t]) = ts ++ [f t] := by
  intro ts
  induction ts with
  | nil => intro t; rfl
  | cons a ts2 ih =>
    intro t
    cases ts2 with
    | nil => rfl
    | cons b ts3 =>
      show a :: updateLast f ((b :: ts3) ++ [t]) = a :: ((b :: ts3) ++ [f t])
      rw [ih]

/-! ## Concrete instances used by the witnesses -/

/-- A filesystem with two text files matched by `*.txt`. -/
def demoFS : FS where
  glob := fun pats => if pats = ["*.txt"] then ["a.txt", "b.txt"] else []
  hashFile := fun f => .ok ("sum-" ++ f)
  glob_nil := by decide

/-- A filesystem with a single input file `in.txt` and nothing else;
no output pattern ever matches. -/
def runFS : FS where
  glob := fun pats => if pats = ["in.txt"] then ["in.txt"] else []
  hashFile := fun f => .ok ("h-" ++ f)
  glob_nil := by decide

/-- An executor whose commands succeed without changing the filesystem. -/
def execId : Task → FS → ExecResult := fun _ fs => .success fs

/-- A task watching `in.txt` with no declared outputs. -/
def tRun : Task :=
  { cmd := "gen", inputPatterns := ["in.txt"], outputPatterns := [], cmdMd5 := "mr" }

/-- Fresh world: `in.txt` on disk, empty cache directory. -/
def wRun : World := ⟨runFS, []⟩

/-- The world after `tRun` executes once from `wRun`: the fingerprint pair
has been persisted. -/
def wRun2 : World :=
  ⟨runFS, [("mr-in-hashes", "h-in.txt in.txt"), ("mr-out-hashes", "")]⟩

/-- A task that declares an output pattern its command never produces. -/
def tNoOut : Task :=
  { cmd := "build", inputPatterns := ["in.txt"], outputPatterns := ["dist.js"],
    cmdMd5 := "m8" }

/-! ## Claims -/

/-- Claim C1: For every task and persisted state, the change decision is taken
by the first matching rule of this order: (1) if the task has non-empty
output patterns and the current output fingerprint is empty, run with
reason "outputs missing"; (2) else if the current output fingerprint
differs from the persisted one, run with reason "outputs changed"; (3)
else if the current input fingerprint differs from the persisted one, run
with reason "inputs changed"; (4) else skip. The decision chain of
`runTaskIfHashesModified` (`buildReason`) agrees with the spec's four-rule
table, rule for rule and reason for reason. -/
theorem change_decision_order (t : Task)
    (persistedOut persistedIn curOut curIn : String) :
    buildReason t persistedOut persistedIn curOut curIn =
      (specChangeDecision t.outputPatterns persistedOut persistedIn curOut curIn).map
        reasonText := by
  unfold buildReason specChangeDecision
  have h2s : (curOut = persistedOut) ↔ (persistedOut = curOut) := eq_comm
  have h3s : (curIn = persistedIn) ↔ (persistedIn = curIn) := eq_comm
  by_cases hb : t.outputPatterns = [] <;>
  by_cases hco : curOut = "" <;>
  by_cases h2 : persistedOut = curOut <;>
  by_cases h3 : persistedIn = curIn <;>
    simp_all [List.length_eq_zero, reasonText, eq_comm]

/-- Claim C5: For every base directory and pattern list, the fingerprint
operation returns the concatenation of one `<content-hash> <relative-path>`
line per matched file, joined by newlines in the order the glob match
returns the files; a pattern set matching no files yields the empty string
rather than an error. -/
theorem fingerprint_format (fs : FS) (patterns : List String)
    (h : String → String)
    (hp : ∀ f ∈ fs.glob patterns, fs.hashFile f = .ok (h f)) :
    getHashesFromGlobs fs patterns =
      .ok (String.intercalate "\n"
        ((fs.glob patterns).map (fun f => h f ++ " " ++ f))) ∧
    (fs.glob patterns = [] → getHashesFromGlobs fs patterns = .ok "") :=
  ⟨getHashes_ok fs patterns h hp, getHashes_empty_glob fs patterns⟩

theorem fingerprint_format_witness :
    (∀ f ∈ demoFS.glob ["*.txt"], demoFS.hashFile f = .ok ("sum-" ++ f)) ∧
    getHashesFromGlobs demoFS ["*.txt"] =
      .ok (String.intercalate "\n"
        ((demoFS.glob ["*.txt"]).map (fun f => ("sum-" ++ f) ++ " " ++ f))) :=
  ⟨fun _f _hf => rfl,
   (fingerprint_format demoFS ["*.txt"] (fun f => "sum-" ++ f)
      (fun _f _hf => rfl)).1⟩

/-- Claim C7: For every configuration line under a task that begins with the
literal prefix `out:`, parsing adds the remainder after the prefix as an
output pattern of the current task, and additionally counts that pattern
line as an input pattern watch of the same task (the full line, `out:`
prefix included, is what lands in `inputPatterns`). -/
theorem out_pattern_line (md5 : String → String) (ts : List Task) (t : Task)
    (line : String) (h : hasPrefixStr line "out:" = true) :
    processLine md5 (ts ++ [t]) line =
      .ok (ts ++ [{ t with
        outputPatterns := t.outputPatterns ++ [strDrop4 line],
        inputPatterns := t.inputPatterns ++ [line] }]) := by
  obtain ⟨rest, hd⟩ := out_line_shape h
  have h1 : charAt0 line '[' = false := by simp [charAt0, hd]
  have h2 : charAt0 line '#' = false := by simp [charAt0, hd]
  have h3 : ¬(line = "") := by
    intro he
    rw [he] at hd
    cases hd
  unfold processLine
  rw [h1, h2]
  simp only [Bool.false_eq_true, if_false, ne_eq, h3, not_false_eq_true, if_true]
  rw [List.getLast?_concat]
  rw [updateLast_append]
  simp [addPattern, h]

theorem out_pattern_line_witness :
    hasPrefixStr "out:dist/*.js" "out:" = true ∧
    processLine id ([] ++ [tRun]) "out:dist/*.js" =
      .ok ([] ++ [{ tRun with
        outputPatterns := tRun.outputPatterns ++ [strDrop4 "out:dist/*.js"],
        inputPatterns := tRun.inputPatterns ++ ["out:dist/*.js"] }]) :=
  ⟨by decide, out_pattern_line id [] tRun "out:dist/*.js" (by decide)⟩

/-- Claim C10: For every task whose output pattern list is empty, the change
decision never fires the "outputs missing" or "outputs changed" rules:
the current output fingerprint of an empty pattern set is the empty
string, a missing persisted output entry reads as the empty string, and
the run-or-skip decision is determined solely by comparing the current
input fingerprint with the persisted input fingerprint. -/
theorem empty_outputs_decision (w : World) (t : Task)
    (hout : t.outputPatterns = [])
    (hmiss : w.cache.lookup (outKey t) = none) :
    getHashesFromGlobs w.fsys t.outputPatterns = .ok "" ∧
    readCache w.cache (outKey t) = "" ∧
    taskDecision w t = (getHashesFromGlobs w.fsys t.inputPatterns).map
      (fun curIn => if readCache w.cache (inKey t) ≠ curIn
        then some "(input files have changed)" else none) := by
  have h1 : getHashesFromGlobs w.fsys t.outputPatterns = .ok "" := by
    rw [hout]
    exact getHashes_nil w.fsys
  have h2 : readCache w.cache (outKey t) = "" := by
    unfold readCache
    rw [hmiss]
    rfl
  refine ⟨h1, h2, ?_⟩
  unfold taskDecision
  cases hin : getHashesFromGlobs w.fsys t.inputPatterns with
  | error e => simp [h1, hin, Except.map]
  | ok curIn =>
    simp only [h1, hin, Except.map]
    unfold buildReason
    rw [h2, hout]
    simp

theorem empty_outputs_decision_witness :
    tRun.outputPatterns = [] ∧
    taskDecision wRun tRun = (getHashesFromGlobs wRun.fsys tRun.inputPatterns).map
      (fun curIn => if readCache wRun.cache (inKey tRun) ≠ curIn
        then some "(input files have changed)" else none) :=
  ⟨rfl, (empty_outputs_decision wRun tRun rfl rfl).2.2⟩

/-- Claim C2: For every task list, the scheduler sweeps the tasks in declaration
order; when the index passes the end of the list it starts a new pass from
index 0 if and only if at least one task executed during the pass just
completed, and otherwise terminates, reporting the total number of task
executions across all passes. First conjunct: the pass boundary restarts
at 0 (clearing the pass flag) exactly when `didRun`, else terminates with
the accumulated count. Second conjunct: in range, the scheduler consults
the task at the current index and advances to the next index. Third
conjunct: the reported total is the starting counter plus the number of
executions performed. -/
theorem scheduler_pass_structure (exec : Task → FS → ExecResult)
    (tasks : List Task) (fuel : Nat) (s : SchedSt) :
    (tasks.length ≤ s.i →
      schedRun exec tasks (fuel + 1) s =
        if s.didRun then schedRun exec tasks fuel ⟨0, false, s.amount, s.w⟩
        else .done s.amount s.w) ∧
    (∀ h : s.i < tasks.length, ∀ b w2,
      runTask exec s.w (tasks.get ⟨s.i, h⟩) = .completed b w2 →
      schedRun exec tasks (fuel + 1) s =
        schedRun exec tasks fuel
          ⟨s.i + 1, s.didRun || b, s.amount + (if b then 1 else 0), w2⟩) ∧
    (∀ n w2, schedRun exec tasks (fuel + 1) s = .done n w2 →
      n = s.amount + specExecCount exec tasks (fuel + 1) s) := by
  refine ⟨schedRun_boundary exec tasks fuel s, ?_, ?_⟩
  · intro h b w2 hr
    rw [schedRun, dif_pos h]
    simp only [hr]
  · intro n w2 h
    exact schedRun_done_count exec tasks (fuel + 1) s n w2 h

theorem scheduler_pass_structure_witness :
    ([tRun].length ≤ 1 ∧
      schedRun execId [tRun] 1 ⟨1, false, 0, wRun2⟩ = .done 0 wRun2) ∧
    (1 = 0 + specExecCount execId [tRun] 4 ⟨0, false, 0, wRun⟩) := by
  constructor
  · refine ⟨by decide, ?_⟩
    have h := (scheduler_pass_structure execId [tRun] 0 ⟨1, false, 0, wRun2⟩).1
      (by decide)
    simpa using h
  · exact (scheduler_pass_structure execId [tRun] 3 ⟨0, false, 0, wRun⟩).2.2 1 wRun2
      (by rfl)

/-- Claim C3: For every task, the persisted fingerprint pair is mutated only
immediately after that task's successful execution — never on skip and
never on failure — and when it is mutated, the input and output
fingerprints are written together as a pair, with the output fingerprint
freshly recomputed after execution and the input fingerprint being the one
computed before execution. -/
theorem persistence_pair_discipline (exec : Task → FS → ExecResult)
    (w : World) (t : Task) :
    (∀ w2, runTask exec w t = .completed false w2 → w2 = w) ∧
    (∀ w2, runTask exec w t = .completed true w2 →
      ∃ curIn fs2 fresh,
        getHashesFromGlobs w.fsys t.inputPatterns = .ok curIn ∧
        exec t w.fsys = .success fs2 ∧
        getHashesFromGlobs fs2 t.outputPatterns = .ok fresh ∧
        w2 = ⟨fs2, cacheWrite (cacheWrite w.cache (outKey t) fresh)
                (inKey t) curIn⟩) ∧
    (∀ c w2, runTask exec w t = .fatal c w2 → w2.cache = w.cache) ∧
    (∀ e w2, runTask exec w t = .errored e w2 → w2.cache = w.cache) := by
  refine ⟨fun w2 h => runTask_completed_false h, ?_,
    fun c w2 h => runTask_fatal_cache h, fun e w2 h => runTask_errored_cache h⟩
  intro w2 h
  obtain ⟨curIn, fs2, fresh, h1, h2, h3, _h4, h5⟩ := runTask_completed_true h
  exact ⟨curIn, fs2, fresh, h1, h2, h3, h5⟩

theorem persistence_pair_discipline_witness :
    (runTask execId wRun tRun = .completed true wRun2) ∧
    (∃ curIn fs2 fresh,
      getHashesFromGlobs wRun.fsys tRun.inputPatterns = .ok curIn ∧
      execId tRun wRun.fsys = .success fs2 ∧
      getHashesFromGlobs fs2 tRun.outputPatterns = .ok fresh ∧
      wRun2 = ⟨fs2, cacheWrite (cacheWrite wRun.cache (outKey tRun) fresh)
                (inKey tRun) curIn⟩) :=
  ⟨rfl, (persistence_pair_discipline execId wRun tRun).2.1 wRun2 rfl⟩

/-- Claim C4: For every configuration, if a run of the scheduler completes and
nothing changes afterwards, then a second run executes zero tasks: every
task's change decision is a skip in the final world, and a fresh sweep
from that world terminates after a single pass reporting zero
executions. -/
theorem scheduler_idempotent (exec : Task → FS → ExecResult)
    (tasks : List Task) (w : World) (fuel n : Nat) (w2 : World)
    (h : schedRun exec tasks fuel ⟨0, false, 0, w⟩ = .done n w2) :
    (∀ j (hj : j < tasks.length),
      runTask exec w2 (tasks.get ⟨j, hj⟩) = .completed false w2) ∧
    schedRun exec tasks (tasks.length + 1) ⟨0, false, 0, w2⟩ = .done 0 w2 := by
  have hall := schedRun_done_all_skip exec tasks fuel ⟨0, false, 0, w⟩ n w2
    (fun _ j _ hji => absurd hji (Nat.not_lt_zero j)) h
  refine ⟨hall, ?_⟩
  have hrun := schedRun_all_skip exec tasks tasks.length ⟨0, false, 0, w2⟩ rfl
    (by simp) hall
  simpa using hrun

theorem scheduler_idempotent_witness :
    (schedRun execId [tRun] 4 ⟨0, false, 0, wRun⟩ = .done 1 wRun2) ∧
    schedRun execId [tRun] ([tRun].length + 1) ⟨0, false, 0, wRun2⟩ =
      .done 0 wRun2 :=
  ⟨rfl, (scheduler_idempotent execId [tRun] wRun 4 1 wRun2 rfl).2⟩

/-- Claim C6 is violated by the code: a pattern-less LAST task section is NOT
rejected. The zero-pattern check (line 66) runs only when a subsequent `[`
header is encountered, so `readConfigFile` accepts a configuration whose
final section has no pattern lines and returns the pattern-less task,
while a mid-file pattern-less section is rejected with exit code 6. -/
theorem last_section_no_patterns_accepted :
    readConfigFile id "[echo hi]" =
      .ok [{ cmd := "echo hi", inputPatterns := [], outputPatterns := [],
             cmdMd5 := "echo hi" }] ∧
    readConfigFile id "[a]\n[b]\nx" =
      .error ("command 'a' didn't specifiy any dependencies", 6) := by
  constructor
  · rfl
  · rfl

/-- Claim C8 is violated by the code: when a task with declared output patterns
executes successfully but produces no matching files, the run does stop
before any cache write, but via `exit(msg)` WITHOUT an exit code
(line 173), so the process terminates with exit code 0, not a non-zero
code. Here: `tNoOut` declares output `dist.js`, its command succeeds
without creating it, and the outcome is `fatal` with code
`exitCodeOf none = 0`, cache untouched. -/
theorem no_outputs_produced_exits_zero :
    runTask execId ⟨runFS, []⟩ tNoOut = .fatal 0 ⟨runFS, []⟩ ∧
    exitCodeOf none = 0 := by
  constructor
  · rfl
  · rfl

/-- Claim C9 is violated by the code for the duplicate-command case: the
duplicate-command `exit` (line 82) passes no exit code, so the process
terminates with code 0 — the same code as clean completion — instead of a
distinct non-zero code. The missing-header and mid-file no-patterns cases
do get distinct non-zero codes (2 and 6). -/
theorem duplicate_command_exits_zero :
    readConfigFile id "[a]\nx\n[a]\ny" =
      .error ("task command should be unique", 0) ∧
    readConfigFile id "x\n[a]\ny" =
      .error ("buildconfig files should start with a shell command between brackets",
              2) := by
  constructor
  · rfl
  · rfl

end BuildIfChanged
